import Mathlib

/-!
# Verification of the TS-MIPS two-pass assembler and datapath clock loop

This development is a shallow embedding, in Lean 4, of the parts of the
TS-MIPS repository that the specification talks about:

* `src/src/assembler/assembler.ts` — the two-pass assembler
  (`buildSymbolTable`, `resolveSymbols`, `expand`, `assembleInstructions`,
  `load`);
* `src/src/language/MIPS.ts` — register tables, label predicate,
  pseudo-instruction set, instruction metadata;
* `src/src/language/ASMDirectives.ts` — directive `validate` /
  `calculateForwardOffset` / `execute` and `AsciiConverter`;
* `assembler/tokenizer.ts` — `Tokenizer.parseOperand`, the operand
  classifier stage B feeds on (present in the dump among the unnamed
  files, next to `utils/Errors.ts`);
* `src/src/components/memory.ts` — the byte-addressable memory image;
* the `Component` base class with `doSingleClockCycle` (datapath clock).

Modelling conventions:

* A *normalized logical line* (the output of `Assembler.parse`) is
  represented as its list of whitespace tokens, mnemonic first and commas
  already stripped — e.g. the source line `li $t0, 1` is the token list
  `["li", "$t0", "1"]`, and a label line `target:` is `["target:"]`.
  The TS code carries such lines as single strings and re-splits them on
  spaces at every step; the token list is exactly that split.
* JS numbers that hold addresses and words are modelled as `Nat` (with
  explicit `% 2^32`-style masking where the TS relies on `ToUint32`) and
  signed immediates as `Int` with Euclidean `emod` for the JS `& 0xffff`
  truncation.
* JS exceptions are modelled with `Except AsmErr`.  A TS method whose body
  contains no `throw` is embedded as a total function.
* Memory listeners (`addListener` / `notifyListeners`) are not modelled:
  no property below observes them.
-/

namespace TSMIPS

/-- A normalized logical line: mnemonic followed by comma-stripped args. -/
abbrev Instr := List String

/-- Errors thrown during assembly (`src/utils/Errors.ts` taxonomy, plus the
implicit JS `TypeError` that property accesses on `undefined` raise). -/
inductive AsmErr where
  /-- TS `MIPSAssemblerError("Unknown label: …", line)` from `resolveSymbols`. -/
  | unknownLabel (label : String) (line : Nat)
  /-- TS `MIPSAssemblerError("Unknown register: …", line)` from `resolveSymbols`. -/
  | unknownRegister (reg : String) (line : Nat)
  /-- TS `MIPSAssemblerError("Unknown Instruction: …")` from `assembleInstructions`. -/
  | unknownInstruction (instr : Instr)
  /-- JS `TypeError` on `MIPS_INSTRUCTIONS[op].opCode` when `op` is not a key. -/
  | jsTypeError (op : String)
  /-- TS `Error("Memory address out of bounds: …")` from `Memory.validateAddress`. -/
  | memOutOfBounds (address : Nat)
  deriving Repr, DecidableEq

/-! ## Registers (`src/language/MIPS.ts`) -/

/-- Table `REGISTER_UNALIAS`: ABI alias → canonical `$N` name. -/
def aliasToRaw : String → Option String
  | "$zero" => some "$0" | "$at" => some "$1"
  | "$v0" => some "$2"   | "$v1" => some "$3"
  | "$a0" => some "$4"   | "$a1" => some "$5"
  | "$a2" => some "$6"   | "$a3" => some "$7"
  | "$t0" => some "$8"   | "$t1" => some "$9"
  | "$t2" => some "$10"  | "$t3" => some "$11"
  | "$t4" => some "$12"  | "$t5" => some "$13"
  | "$t6" => some "$14"  | "$t7" => some "$15"
  | "$s0" => some "$16"  | "$s1" => some "$17"
  | "$s2" => some "$18"  | "$s3" => some "$19"
  | "$s4" => some "$20"  | "$s5" => some "$21"
  | "$s6" => some "$22"  | "$s7" => some "$23"
  | "$t8" => some "$24"  | "$t9" => some "$25"
  | "$k0" => some "$26"  | "$k1" => some "$27"
  | "$gp" => some "$28"  | "$sp" => some "$29"
  | "$fp" => some "$30"  | "$ra" => some "$31"
  | _ => none

/-- Table `MIPS_REGISTERS[raw].registerNumber` — keys are the canonical `$N`. -/
def rawRegisterNumber : String → Option Nat
  | "$0" => some 0   | "$1" => some 1   | "$2" => some 2   | "$3" => some 3
  | "$4" => some 4   | "$5" => some 5   | "$6" => some 6   | "$7" => some 7
  | "$8" => some 8   | "$9" => some 9   | "$10" => some 10 | "$11" => some 11
  | "$12" => some 12 | "$13" => some 13 | "$14" => some 14 | "$15" => some 15
  | "$16" => some 16 | "$17" => some 17 | "$18" => some 18 | "$19" => some 19
  | "$20" => some 20 | "$21" => some 21 | "$22" => some 22 | "$23" => some 23
  | "$24" => some 24 | "$25" => some 25 | "$26" => some 26 | "$27" => some 27
  | "$28" => some 28 | "$29" => some 29 | "$30" => some 30 | "$31" => some 31
  | _ => none

/-- TS `isValidRegister`: raw `$N` key or alias whose unaliased form is a key. -/
def isValidRegister (r : String) : Bool :=
  (rawRegisterNumber r).isSome ||
    (match aliasToRaw r with
     | some raw => (rawRegisterNumber raw).isSome
     | none => false)

/-- TS `registerLookup(reg).registerNumber` (raw lookup, falling back to the
unaliased form; total with junk value 0 exactly where the TS would produce
an `undefined` that contributes 0 to the bitwise ops of the encoder). -/
def registerNumber (r : String) : Nat :=
  match rawRegisterNumber r with
  | some n => n
  | none =>
    match aliasToRaw r with
    | some raw => (rawRegisterNumber raw).getD 0
    | none => 0

/-- TS `unaliasRegister`: alias → raw, raw (or anything else) unchanged. -/
def unaliasRegister (r : String) : String :=
  match aliasToRaw r with
  | some raw => raw
  | none => r

/-! ## Labels and pseudo-instructions (`src/language/MIPS.ts`) -/

/-- Character class `[a-zA-Z_]` of the label regex. -/
def isLabelStartChar (c : Char) : Bool :=
  (('a' ≤ c && c ≤ 'z') || ('A' ≤ c && c ≤ 'Z') || c = '_')

/-- Character class `[a-zA-Z0-9_]` of the label regex. -/
def isLabelChar (c : Char) : Bool :=
  isLabelStartChar c || ('0' ≤ c && c ≤ '9')

/-- TS `isValidLabel`: the regex `^[a-zA-Z_][a-zA-Z0-9_]*:$`. -/
def isValidLabel (s : String) : Bool :=
  match s.data with
  | [] => false
  | c :: rest =>
    isLabelStartChar c &&
      (match rest.getLast? with
       | some ':' => (rest.dropLast.all isLabelChar)
       | _ => false)

/-- Set `MIPS_PSEUDO_INSTRUCTIONS` / `isMIPSPseudoInstruction`.  The closed
set handled by `Assembler.expand` (the spec's fourteen mnemonics, including
`beqz`, for which `expand` has an arm; the one MIPS.ts revision present in
the dump lists the same set minus `beqz`, and the operative MIPS.ts — the
one exporting `MIPS_PSEUDO_OP` — is not in the dump.  No judged property
involves `beqz`). -/
def isMIPSPseudoInstruction (op : String) : Bool :=
  op ∈ ["abs", "blt", "bgt", "ble", "bge", "beqz", "neg", "negu", "not",
        "li", "la", "move", "sge", "sgt"]

/-- TS `isMIPSAssemblerDirective`: the keys of `MIPS_ASSEMBLER_DIRECTIVES`. -/
def isMIPSAssemblerDirective (s : String) : Bool :=
  s ∈ [".align", ".ascii", ".asciiz", ".byte", ".data", ".double",
       ".float", ".half", ".space", ".text", ".word"]

/-! ## JS numeric primitives -/

/-- Leading decimal digits of a character list (the core of JS `parseInt`):
`none` when the first character is not a digit, otherwise the value of the
longest digit run. -/
def parseDigits : List Char → Option Nat
  | c :: rest =>
    if c.isDigit then
      some (rest.takeWhile Char.isDigit
        |>.foldl (fun acc d => acc * 10 + (d.toNat - 48)) (c.toNat - 48))
    else none
  | [] => none

/-- JS `parseInt` on the decimal strings this assembler produces and
consumes: optional sign, then leading digits; `none` models `NaN`. -/
def parseIntJS (s : String) : Option Int :=
  match s.data with
  | '-' :: rest => (parseDigits rest).map (fun n => -(n : Int))
  | '+' :: rest => (parseDigits rest).map (fun n => (n : Int))
  | cs => (parseDigits cs).map (fun n => (n : Int))

/-- JS `ToUint32` (the `>>> 0` view used by `x >>> 16`). -/
def toUint32 (i : Int) : Nat := (i.emod (2 ^ 32)).toNat

/-- JS `x & 0xffff` on an integer (via `ToInt32`, whose low 16 bits match
the Euclidean remainder). `none` (`NaN`) masks to 0. -/
def mask16 : Option Int → Nat
  | some i => (i.emod (2 ^ 16)).toNat
  | none => 0

/-- JS `x & 0x3ffffff` (J-type target mask); `NaN` masks to 0. -/
def mask26 : Option Int → Nat
  | some i => (i.emod (2 ^ 26)).toNat
  | none => 0

/-! ## Symbol table -/

/-- The symbol table: a JS object used as a string-keyed map.  Key order is
insertion order (what `for … in` iterates); updating an existing key keeps
its position. -/
abbrev SymTab := List (String × Nat)

/-- Lookup, `none` for a missing key (`undefined`). -/
def symLookup (tab : SymTab) (key : String) : Option Nat :=
  match tab.find? (fun e => e.1 = key) with
  | some e => some e.2
  | none => none

/-- Assignment `table[key] = v`: update in place if present, else append. -/
def symInsert (tab : SymTab) (key : String) (v : Nat) : SymTab :=
  match tab with
  | [] => [(key, v)]
  | e :: rest =>
    if e.1 = key then (key, v) :: rest else e :: symInsert rest key v

/-- The initial symbol table of `Assembler`: reserved segment bases
`.text = 0x00000000`, `.data = 0x00000800`. -/
def initialSymTab : SymTab := [(".text", 0x00000000), (".data", 0x00000800)]

/-- The two per-segment location counters. -/
structure Counters where
  text : Nat
  data : Nat
  deriving Repr, DecidableEq

/-- The active segment. -/
inductive Segment where
  | text
  | data
  deriving Repr, DecidableEq

def Counters.get : Counters → Segment → Nat
  | c, .text => c.text
  | c, .data => c.data

def Counters.add : Counters → Segment → Nat → Counters
  | c, .text, n => { c with text := c.text + n }
  | c, .data, n => { c with data := c.data + n }


/-! ## AsciiConverter and directives (`src/language/ASMDirectives.ts`) -/

/-- TS `AsciiConverter.convertToAsciiArray`: decode the escape alphabet
`\n \t \r \b \f \v \\ \" \'` (two chars → one byte); an unrecognized escape
pushes the backslash itself and continues; a trailing backslash is pushed
literally. -/
def convertToAsciiArray : List Char → List Nat
  | '\\' :: c :: rest =>
    match c with
    | 'n' => 10 :: convertToAsciiArray rest
    | 't' => 9 :: convertToAsciiArray rest
    | 'r' => 13 :: convertToAsciiArray rest
    | 'b' => 8 :: convertToAsciiArray rest
    | 'f' => 12 :: convertToAsciiArray rest
    | 'v' => 11 :: convertToAsciiArray rest
    | '\\' => 92 :: convertToAsciiArray rest
    | '"' => 34 :: convertToAsciiArray rest
    | '\'' => 39 :: convertToAsciiArray rest
    | _ => 92 :: convertToAsciiArray (c :: rest)
  | c :: rest => c.toNat :: convertToAsciiArray rest
  | [] => []

/-- TS `this.args.join(' ')`. -/
def joinArgs (args : List String) : String := String.intercalate " " args

/-- JS `s.slice(1, -1)`: strip the first and last character (the quotes). -/
def sliceInner (s : String) : String := (s.drop 1).dropRight 1

/-- The decoded byte list of a directive's string argument(s):
`AsciiConverter.convertToAsciiArray(args.join(' ').slice(1, -1))`. -/
def directiveAsciiValues (args : List String) : List Nat :=
  convertToAsciiArray (sliceInner (joinArgs args)).data

/-- TS `AssemblerDirective.calculateForwardOffset`, by directive.  `.align 0`
would divide by zero (`NaN`) in JS; it is modelled as 0 and never reached by
the properties below.  Callers guard with `isMIPSAssemblerDirective`, so the
default arm (source: `throw Unknown directive`) is unreachable. -/
def calculateForwardOffset (directive : String) (args : List String)
    (locationCounter : Nat) : Nat :=
  match directive with
  | ".align" =>
    let alignment := ((parseIntJS (args.getD 0 "undefined")).getD 0).toNat
    if alignment = 0 then 0
    else
      let remainder := alignment - locationCounter % alignment
      if remainder = alignment then 0 else remainder
  | ".ascii" => (directiveAsciiValues args).length
  | ".asciiz" => (directiveAsciiValues args).length + 1
  | ".byte" => args.length
  | ".data" => 0
  | ".double" => args.length * 8
  | ".float" => args.length * 4
  | ".half" => args.length * 2
  | ".space" => ((parseIntJS (args.getD 0 "undefined")).getD 0).toNat
  | ".text" => 0
  | ".word" => args.length * 4
  | _ => 0

/-! ## Memory (`src/components/memory.ts`) -/

/-- The byte-addressable memory image: a size and the byte contents. -/
structure Mem where
  size : Nat
  bytes : Nat → Nat

/-- Pointwise byte stores (`view.setUint8(address + i, data[i])`), masking to
a byte as `setUint8` does. -/
def writeList (f : Nat → Nat) (address : Nat) : List Nat → (Nat → Nat)
  | [] => f
  | b :: rest => writeList (fun a => if a = address then b % 256 else f a) (address + 1) rest

/-- TS `Memory.write`: `validateAddress(address, data.byteLength)` throws when
`address + len > SIZE`, otherwise the bytes are stored one by one.
(Write listeners are not modelled.) -/
def Mem.write (m : Mem) (address : Nat) (res : List Nat) : Except AsmErr Mem :=
  if address + res.length ≤ m.size then
    .ok { m with bytes := writeList m.bytes address res }
  else
    .error (.memOutOfBounds address)

/-- TS `Memory.readByte` (in-bounds reads; `getUint8` of the stored byte). -/
def Mem.readByte (m : Mem) (address : Nat) : Nat := m.bytes address

/-- JS value → `Uint8Array` element (mod 2^8; `NaN` stores 0). -/
def jsToUint8 : Option Int → Nat
  | some i => (i.emod (2 ^ 8)).toNat
  | none => 0

/-- A `Uint16Array` element serialized through `new Uint8Array(h.buffer)`:
little-endian bytes of the 16-bit value (JS engines are little-endian). -/
def halfLE (i : Option Int) : List Nat :=
  let h := mask16 i
  [h % 256, h / 256]

/-- A `Uint32Array` element serialized through `new Uint8Array(w.buffer)`:
little-endian bytes of the 32-bit value. -/
def wordLE (i : Option Int) : List Nat :=
  let w := match i with | some v => toUint32 v | none => 0
  [w % 256, w / 2 ^ 8 % 256, w / 2 ^ 16 % 256, w / 2 ^ 24 % 256]

/-- TS `AssemblerDirective.execute`, by directive, against the memory image.
For `.ascii` the buffer is `new Uint8Array(vals.length + 1)` — zero
initialized and filled only at indexes `0 … vals.length - 1`, so the final
byte stays `0x00` and the directive writes `vals.length + 1` bytes.  For
`.asciiz` the extra `bufferz[s.length] = 0` store uses the RAW string length
(out-of-range stores on a `Uint8Array` are ignored, which `List.set` also
does).  `.double` and `.float` only warn; `.space` and `.align` write
nothing. -/
def executeDirective (directive : String) (args : List String)
    (locationCounter : Nat) (m : Mem) : Except AsmErr Mem :=
  match directive with
  | ".align" => .ok m
  | ".ascii" =>
    let vals := directiveAsciiValues args
    m.write locationCounter (vals.map (· % 256) ++ [0])
  | ".asciiz" =>
    let inner := sliceInner (joinArgs args)
    let vals := convertToAsciiArray inner.data
    m.write locationCounter ((vals.map (· % 256) ++ [0]).set inner.length 0)
  | ".byte" => m.write locationCounter (args.map (fun a => jsToUint8 (parseIntJS a)))
  | ".data" => .ok m
  | ".double" => .ok m
  | ".float" => .ok m
  | ".half" => m.write locationCounter (args.flatMap (fun a => halfLE (parseIntJS a)))
  | ".space" => .ok m
  | ".text" => .ok m
  | ".word" => m.write locationCounter (args.flatMap (fun a => wordLE (parseIntJS a)))
  | _ => .ok m

/-! ## Pseudo expansion (`Assembler.expand`) -/

/-- TS `Assembler.expand`, at the token level (the comma-and-space strings it
emits are exactly these tokens once stage C's `replace(/,/g, '')` has run; in
stage A only the length of the result is consumed, which is unaffected).
A missing positional argument renders as the string `"undefined"`, as the JS
template literal would.  Note `sge`/`sgt` read `args[1], args[0]` — not the
spec's `a2, a1` — and the middle instruction of `abs` is a `bge` pseudo that
is never re-expanded. -/
def expand (instruction : Instr) : List Instr :=
  let op := instruction.headD ""
  let args := instruction.tail
  if ¬ isMIPSPseudoInstruction op then [instruction]
  else
    let a0 := args.getD 0 "undefined"
    let a1 := args.getD 1 "undefined"
    let a2 := args.getD 2 "undefined"
    match op with
    | "abs" => [["sub", a0, "$0", a1], ["bge", a1, "$0", "1"], ["sub", a0, "$0", a1]]
    | "blt" => [["slt", "$1", a0, a1], ["bne", "$1", "$0", a2]]
    | "bgt" => [["slt", "$1", a1, a0], ["bne", "$1", "$0", a2]]
    | "ble" => [["slt", "$1", a1, a0], ["beq", "$1", "$0", a2]]
    | "neg" => [["sub", a0, "$0", a1]]
    | "negu" => [["subu", a0, "$0", a1]]
    | "not" => [["nor", a0, a1, "$0"]]
    | "bge" => [["slt", "$1", a1, a0], ["beq", "$1", "$0", a2]]
    | "li" | "la" =>
      let n := parseIntJS a1
      let upper := match n with | some v => toUint32 v / 2 ^ 16 % 2 ^ 16 | none => 0
      let lower := mask16 n
      [["lui", a0, toString upper], ["ori", a0, a0, toString lower]]
    | "move" => [["add", a0, "$0", a1]]
    | "sge" => [["slt", "$1", a1, a0], ["xori", a0, "$1", "1"]]
    | "sgt" => [["slt", a0, a1, a0]]
    | "beqz" => [["beq", a0, "$0", a1]]
    | _ => [instruction]

/-! ## Pass 1: `Assembler.buildSymbolTable` -/

/-- State threaded through the pass-1 walk. -/
structure P1State where
  segment : Segment
  counters : Counters
  tab : SymTab

/-- One line of `buildSymbolTable`: directives advance the counter by their
forward offset (switching segments on `.text`/`.data` first), a label
definition records `label → active counter` (the colon stripped, silently
overwriting any existing entry), anything else advances the counter by 4. -/
def pass1Step (st : P1State) (line : Instr) : P1State :=
  let command := line.headD ""
  let args := line.tail
  if isMIPSAssemblerDirective command then
    let st :=
      if line = [".text"] then { st with segment := .text }
      else if line = [".data"] then { st with segment := .data }
      else st
    let off := calculateForwardOffset command args (st.counters.get st.segment)
    { st with counters := st.counters.add st.segment off }
  else if isValidLabel command then
    let label := command.dropRight 1
    { st with tab := symInsert st.tab label (st.counters.get st.segment) }
  else
    { st with counters := st.counters.add st.segment 4 }

/-- The pass-1 initial state: active segment `.text`, counters at the
reserved segment bases of the symbol table. -/
def initialP1State (tab : SymTab) : P1State :=
  { segment := .text,
    counters := ⟨(symLookup tab ".text").getD 0, (symLookup tab ".data").getD 0⟩,
    tab := tab }

/-- TS `Assembler.buildSymbolTable` over the normalized line list. -/
def buildSymbolTable (instructions : List Instr) : SymTab :=
  (instructions.foldl pass1Step (initialP1State initialSymTab)).tab

/-! ## Pass 2, stage A: symbol-table fixup (`Assembler.resolveSymbols`) -/

/-- Stage-A fixup applied to the table when a pseudo-instruction of expanded
byte length `len` is met with the location counters at `counters` in
`segment`: every non-reserved label in the same segment (same side of the
`.data` base) whose recorded address is `≥ counter + len` is shifted by
`len - 4`. -/
def fixupTable (tab : SymTab) (segment : Segment) (counters : Counters)
    (len : Nat) : SymTab :=
  let dataBase := (symLookup tab ".data").getD 0
  tab.map (fun e =>
    if e.1 = ".text" ∨ e.1 = ".data" then e
    else
      let labelSegment := if e.2 < dataBase then Segment.text else Segment.data
      if labelSegment = segment ∧ e.2 ≥ counters.get segment + len then
        (e.1, e.2 + (len - 4))
      else e)

/-- One line of resolveSymbols stage A (called stage 1 in the source):
whole-line labels are skipped, `.text`/`.data` switch segments, directives
advance by their forward offset, pseudo-instructions trigger the table fixup
and advance by their expanded length, real instructions advance by 4. -/
def stageAStep (st : P1State) (line : Instr) : P1State :=
  if (match line with | [l] => isValidLabel l | _ => false) then st
  else if line = [".text"] then { st with segment := .text }
  else if line = [".data"] then { st with segment := .data }
  else
    let op := line.headD ""
    let args := line.tail
    if isMIPSAssemblerDirective op then
      let off := calculateForwardOffset op args (st.counters.get st.segment)
      { st with counters := st.counters.add st.segment off }
    else if isMIPSPseudoInstruction op then
      let len := (expand line).length * 4
      { st with
        tab := fixupTable st.tab st.segment st.counters len,
        counters := st.counters.add st.segment len }
    else
      { st with counters := st.counters.add st.segment 4 }

/-- Stage A over the whole line list, from the pass-1 symbol table. -/
def stageARun (tab : SymTab) (instructions : List Instr) : P1State :=
  instructions.foldl stageAStep (initialP1State tab)

/-- The symbol table after pass 1 and stage A of pass 2 — what the label
substitution of stage B consults. -/
def symTabAfterStageA (instructions : List Instr) : SymTab :=
  (stageARun (buildSymbolTable instructions) instructions).tab

/-! ## Pass 2, stage B: directive execution, de-aliasing, label substitution -/

/-- A JS value that is either a string or a number (the `string | number`
fields of the tokenizer's operands). -/
inductive SN where
  | str (s : String)
  | num (i : Int)
  deriving Repr, DecidableEq

/-- The tokenizer's operand variants (`{type: 'register' | 'immediate' |
'memory', …}`). -/
inductive Operand where
  | register (value : String)
  | immediate (value : SN)
  | memory (offset : SN) (base : String)
  deriving Repr, DecidableEq

/-- JS `\w` — the word characters `[A-Za-z0-9_]`. -/
def isWordChar (c : Char) : Bool :=
  ('a' ≤ c && c ≤ 'z') || ('A' ≤ c && c ≤ 'Z') || ('0' ≤ c && c ≤ '9') || c = '_'

/-- The character class `[-\w]` of the memory-operand regex's offset group. -/
def isOffsetChar (c : Char) : Bool := isWordChar c || c = '-'

/-- The `\((\$\w+)\)` tail of the memory-operand regex, applied to the
characters right after an opening parenthesis: a `$`, then a non-empty
greedy `\w+` run whose first non-word successor must be `)`.  Returns the
captured base (with its `$`). -/
def matchBaseAfterParen (cs : List Char) : Option String :=
  match cs with
  | '$' :: rest =>
    let w := rest.takeWhile isWordChar
    if w.isEmpty then none
    else
      match rest.drop w.length with
      | ')' :: _ => some ⟨'$' :: w⟩
      | _ => none
  | _ => none

/-- First (leftmost) match of the unanchored JS regex
`/([-\w]+)?\((\$\w+)\)/` used by `Tokenizer.parseOperand`: the value is the
optional offset capture (the maximal `[-\w]` run immediately before the
parenthesis, `none` when that run is empty) and the `$`-base capture.  The
first argument accumulates the current `[-\w]` run, reversed.  A shorter
offset run can never rescue a failed match (the run's successor would then
have to be `(` yet still lie in `[-\w]`), so this scan is exactly the
regex's backtracking search. -/
def findMemoryMatch : List Char → List Char → Option (Option String × String)
  | _, [] => none
  | run, '(' :: rest =>
    (match matchBaseAfterParen rest with
     | some base =>
       some ((if run.isEmpty then none else some ⟨run.reverse⟩), base)
     | none => findMemoryMatch [] rest)
  | run, c :: rest =>
    if isOffsetChar c then findMemoryMatch (c :: run) rest
    else findMemoryMatch [] rest

/-- JS `Number(token)` on the integral literal forms the assembler can
meet: `''` → 0, optional sign with a full decimal digit run, and the
unsigned `0x`/`0X`, `0o`/`0O`, `0b`/`0B` radix prefixes; everything else —
including the fractional, exponent and `Infinity` forms, which no line of
an assembly program exercises — is `NaN` (`none`).  Unlike `parseIntJS`
(JS `parseInt`), the WHOLE string must be numeric: `Number('12ab')` is
`NaN` where `parseInt('12ab')` is 12. -/
def jsNumberInt (s : String) : Option Int :=
  let digitsVal (cs : List Char) : Option Nat :=
    if cs.isEmpty || ¬ cs.all Char.isDigit then none
    else some (cs.foldl (fun acc d => acc * 10 + (d.toNat - 48)) 0)
  let radixVal (radix : Nat) (isRadixDigit : Char → Bool) (digitVal : Char → Nat)
      (cs : List Char) : Option Int :=
    if cs.isEmpty || ¬ cs.all isRadixDigit then none
    else some ((cs.foldl (fun acc d => acc * radix + digitVal d) 0 : Nat) : Int)
  let isHexDigit (c : Char) : Bool :=
    c.isDigit || ('a' ≤ c && c ≤ 'f') || ('A' ≤ c && c ≤ 'F')
  let hexVal (c : Char) : Nat :=
    if c.isDigit then c.toNat - 48
    else if 'a' ≤ c && c ≤ 'f' then c.toNat - 87
    else c.toNat - 55
  match s.data with
  | [] => some 0
  | '0' :: 'x' :: rest => radixVal 16 isHexDigit hexVal rest
  | '0' :: 'X' :: rest => radixVal 16 isHexDigit hexVal rest
  | '0' :: 'o' :: rest => radixVal 8 (fun c => '0' ≤ c && c ≤ '7') (fun c => c.toNat - 48) rest
  | '0' :: 'O' :: rest => radixVal 8 (fun c => '0' ≤ c && c ≤ '7') (fun c => c.toNat - 48) rest
  | '0' :: 'b' :: rest => radixVal 2 (fun c => c = '0' || c = '1') (fun c => c.toNat - 48) rest
  | '0' :: 'B' :: rest => radixVal 2 (fun c => c = '0' || c = '1') (fun c => c.toNat - 48) rest
  | '-' :: rest => (digitsVal rest).map (fun n => -(n : Int))
  | '+' :: rest => (digitsVal rest).map (fun n => (n : Int))
  | cs => (digitsVal cs).map (fun n => (n : Int))

/-- TS `Tokenizer.parseOperand` (`assembler/tokenizer.ts`): a token
containing `(` is matched against `/([-\w]+)?\((\$\w+)\)/` — on success a
memory operand whose offset is the capture run as a number when
`Number(run)` is not `NaN`, the run string otherwise, and 0 when the run is
absent; when the regex fails the `else if` chain is skipped and the token
falls through to the trailing immediate-string return.  A parenthesis-free
token starting with `$` is a register (validity is NOT checked here — stage
B of `resolveSymbols` checks it and raises its own `Unknown register`); a
token with `Number(token)` not `NaN` is a numeric immediate; anything else
is a label immediate.  `Tokenizer.parse` itself re-splits the line on
spaces and commas with parenthesis grouping; on the normalized lines
`Assembler.parse` emits (space-joined, comma-free, space-free tokens) that
re-split returns the line's own tokens, so stage B maps `parseOperand`
directly over them. -/
def parseOperand (token : String) : Operand :=
  if token.data.contains '(' then
    match findMemoryMatch [] token.data with
    | some (offsetGroup, base) =>
      let offset : SN :=
        match offsetGroup with
        | none => .num 0
        | some g =>
          match jsNumberInt g with
          | some n => .num n
          | none => .str g
      .memory offset base
    | none => .immediate (.str token)
  else if token.data.headD ' ' = '$' then .register token
  else
    match jsNumberInt token with
    | some n => .immediate (.num n)
    | none => .immediate (.str token)

/-- Stage-B resolution of one operand against the symbol table.  The TS
guard is `if (!this.symbolTable[name])` for both label immediates and label
memory offsets: a *missing* key (`undefined`) and a recorded address of
*zero* are both falsy, and both raise `Unknown label`.  Registers must pass
`isValidRegister` and are replaced by their canonical `$N` form. -/
def resolveOperand (tab : SymTab) (index : Nat) :
    Operand → Except AsmErr Operand
  | .memory (.str s) base =>
    (match symLookup tab s with
     | none => .error (.unknownLabel s index)
     | some 0 => .error (.unknownLabel s index)
     | some v => .ok (.memory (.num (v : Int)) base))
  | .memory off base => .ok (.memory off base)
  | .register v =>
    if ¬ isValidRegister v then .error (.unknownRegister v index)
    else .ok (.register (unaliasRegister v))
  | .immediate (.str s) =>
    (match symLookup tab s with
     | none => .error (.unknownLabel s index)
     | some 0 => .error (.unknownLabel s index)
     | some v => .ok (.immediate (.num (v : Int))))
  | .immediate v => .ok (.immediate v)

/-- JS template rendering of a string-or-number value. -/
def renderSN : SN → String
  | .str s => s
  | .num i => toString i

/-- Rendering of one resolved operand when the instruction is rebuilt. -/
def renderOperand : Operand → String
  | .register v => v
  | .immediate v => renderSN v
  | .memory off base => renderSN off ++ "(" ++ base ++ ")"

def Operand.isMemory : Operand → Bool
  | .memory _ _ => true
  | _ => false

def Operand.isRegister : Operand → Bool
  | .register _ => true
  | _ => false

/-- Rebuilding the textual instruction from resolved operands, then — when a
memory operand is present — normalizing to the encoder's three-token form
`command source base offset` (the FIRST register operand is the source, the
memory base is NOT unaliased).  The TS `find(...)!` non-null assertion on a
memory instruction without a register operand would be a `TypeError`. -/
def rebuildInstruction (command : String) (ops : List Operand) :
    Except AsmErr Instr :=
  if (ops.map Operand.isMemory).contains true then
    match ops.find? Operand.isMemory, ops.find? Operand.isRegister with
    | some (.memory off base), some (.register v) =>
      .ok [command, v, base, renderSN off]
    | _, _ => .error (.jsTypeError command)
  else
    .ok (command :: ops.map renderOperand)

/-- State threaded through the stage-B walk: the segment left over from
stage A (the source does NOT reset it), counters re-read from the reserved
table entries, the memory image, and the resolved instruction lines in
order (label and directive lines are marked for removal and never enter
`acc`, mirroring the `linesToStrip` filter). -/
structure BState where
  segment : Segment
  counters : Counters
  mem : Mem
  acc : List Instr

/-- One line of resolveSymbols stage B (stage 2 in the source), at original
line index `index`. -/
def stageBStep (tab : SymTab) (st : BState) (ie : Nat × Instr) :
    Except AsmErr BState :=
  let (index, instruction) := ie
  let command := instruction.headD ""
  let args := instruction.tail
  if isMIPSAssemblerDirective command then
    let st :=
      if instruction = [".text"] then { st with segment := .text }
      else if instruction = [".data"] then { st with segment := .data }
      else st
    let lc := st.counters.get st.segment
    let st := { st with
      counters := st.counters.add st.segment (calculateForwardOffset command args lc) }
    do
      let m ← executeDirective command args lc st.mem
      .ok { st with mem := m }
  else if isValidLabel command then .ok st
  else do
    let resolved ← (args.map parseOperand).mapM (resolveOperand tab index)
    let tokens ← rebuildInstruction command resolved
    .ok { st with
      acc := st.acc ++ [tokens],
      counters := st.counters.add st.segment 4 }

/-! ## Pass 2, stage C: pseudo expansion, and `resolveSymbols` assembled -/

/-- Stage C: one `expand` pass over every resolved line (pseudos produced BY
an expansion — the `bge` inside `abs` — are not expanded again). -/
def stageC (instructions : List Instr) : List Instr :=
  instructions.flatMap expand

/-- TS `Assembler.resolveSymbols`: stage A fixes up the symbol table, stage B
executes directives and substitutes labels/registers, stage C expands
pseudos.  Returns the fixed-up table, the final instruction list, and the
memory image after directive execution. -/
def resolveSymbols (tab : SymTab) (instructions : List Instr) (m : Mem) :
    Except AsmErr (SymTab × List Instr × Mem) :=
  let stA := stageARun tab instructions
  let tabA := stA.tab
  let init : BState :=
    { segment := stA.segment,
      counters := ⟨(symLookup tabA ".text").getD 0, (symLookup tabA ".data").getD 0⟩,
      mem := m,
      acc := [] }
  do
    let stB ← instructions.enum.foldlM (stageBStep tabA) init
    .ok (tabA, stageC stB.acc, stB.mem)

/-- The resolved instruction list alone (discarding table and memory). -/
def resolveInstructions (tab : SymTab) (instructions : List Instr) (m : Mem) :
    Except AsmErr (List Instr) :=
  (resolveSymbols tab instructions m).map (fun r => r.2.1)

/-! ## Encoder (`Assembler.assembleInstructions`) -/

/-- One entry of the instruction metadata table: the 6-bit opcode and, for
R-type, the 6-bit funct. -/
structure InstrMeta where
  opCode : Nat
  funct : Option Nat
  deriving Repr, DecidableEq

/-- The instruction metadata (`MIPS_INSTRUCTIONS` of `language/MIPS.ts`,
transcribed from the revision of that file present in the repository dump).
That revision's table has no `xori`, `syscall`, `break` or `eret` entry, so
looking those up yields `undefined` (`none` here) and the encoder's
`instructionDetails.opCode` access is a `TypeError`. -/
def lookupInstr : String → Option InstrMeta
  | "add" => some ⟨0, some 0x20⟩
  | "addi" => some ⟨0x08, none⟩
  | "addiu" => some ⟨0x09, none⟩
  | "addu" => some ⟨0, some 0x21⟩
  | "and" => some ⟨0, some 0x24⟩
  | "andi" => some ⟨0x0c, none⟩
  | "beq" => some ⟨0x04, none⟩
  | "bgez" => some ⟨0x01, none⟩
  | "bgezal" => some ⟨0x01, none⟩
  | "bgtz" => some ⟨0x07, none⟩
  | "blez" => some ⟨0x06, none⟩
  | "bltz" => some ⟨0x01, none⟩
  | "bltzal" => some ⟨0x01, none⟩
  | "bne" => some ⟨0x05, none⟩
  | "j" => some ⟨0x02, none⟩
  | "jal" => some ⟨0x03, none⟩
  | "jalr" => some ⟨0, some 0x09⟩
  | "jr" => some ⟨0, some 0x08⟩
  | "lb" => some ⟨0x20, none⟩
  | "lbu" => some ⟨0x24, none⟩
  | "lh" => some ⟨0x21, none⟩
  | "lhu" => some ⟨0x25, none⟩
  | "ll" => some ⟨0x30, none⟩
  | "lui" => some ⟨0x0f, none⟩
  | "lw" => some ⟨0x23, none⟩
  | "nop" => some ⟨0, none⟩
  | "nor" => some ⟨0, some 0x27⟩
  | "or" => some ⟨0, some 0x25⟩
  | "ori" => some ⟨0x0d, none⟩
  | "sb" => some ⟨0x28, none⟩
  | "sc" => some ⟨0x38, none⟩
  | "sh" => some ⟨0x29, none⟩
  | "sll" => some ⟨0, some 0x00⟩
  | "sllv" => some ⟨0, some 0x04⟩
  | "slt" => some ⟨0, some 0x2a⟩
  | "slti" => some ⟨0x0a, none⟩
  | "sltiu" => some ⟨0x0b, none⟩
  | "sltu" => some ⟨0, some 0x2b⟩
  | "sra" => some ⟨0, some 0x03⟩
  | "srav" => some ⟨0, some 0x07⟩
  | "srl" => some ⟨0, some 0x02⟩
  | "srlv" => some ⟨0, some 0x06⟩
  | "sub" => some ⟨0, some 0x22⟩
  | "subu" => some ⟨0, some 0x23⟩
  | "sw" => some ⟨0x2b, none⟩
  | "xor" => some ⟨0, some 0x26⟩
  | _ => none

/-- The register-number pipeline every encoder arm runs on its argument
list: `args.map(reg ?? '$0').filter(isValidRegister).map(registerLookup)
.map(r => r.registerNumber)` (the `?? '$0'` is a no-op on a dense array).
A JS destructuring of a missing element gives `undefined`, whose shifted
contribution to the word is 0 — hence `getD _ 0` at the use sites. -/
def filteredRegisterNumbers (args : List String) : List Nat :=
  (args.filter isValidRegister).map registerNumber

/-- The load/store arm of the encoder switch (`MARK: Load and Store`).  The
normalized form is `rt base offset`; when only two tokens are present the
source unshifts `'$0'` so that it becomes the FIRST argument.  The first
filtered register is destructured into `rt` and the second into `rs`. -/
def encodeLoadStore (opc : Nat) (args : List String) : Nat :=
  let args := if args.length = 2 then "$0" :: args else args
  let regs := filteredRegisterNumbers args
  let rt := regs.getD 0 0
  let rs := regs.getD 1 0
  let imm := mask16 (parseIntJS (args.getD 2 "undefined"))
  opc ||| (rs <<< 21) ||| (rt <<< 16) ||| imm

/-- The body of the per-instruction loop of `Assembler.assembleInstructions`:
one exact 32-bit word (`rawInstruction`) per real instruction.  Bitwise ops
on 32-bit JS ints with the final `setUint32` `ToUint32` round-trip are
modelled by `Nat` or-ing of field patterns, each already truncated below
2^32. -/
def encodeInstruction (instruction : Instr) : Except AsmErr Nat :=
  let op := instruction.headD ""
  let args := instruction.tail
  match lookupInstr op with
  | none => .error (.jsTypeError op)
  | some meta =>
    let opc := meta.opCode <<< 26
    match op with
    | "addi" | "addiu" | "andi" | "ori" | "xori" | "slti" | "sltiu" =>
      let regs := filteredRegisterNumbers args
      let rt := regs.getD 0 0
      let rs := regs.getD 1 0
      let imm := mask16 (parseIntJS (args.getD 2 "undefined"))
      .ok (opc ||| (rs <<< 21) ||| (rt <<< 16) ||| imm)
    | "lw" | "lh" | "lhu" | "lb" | "lbu" | "ll" | "sw" | "sb" | "sh" | "sc" =>
      .ok (encodeLoadStore opc args)
    | "bne" | "beq" =>
      let regs := filteredRegisterNumbers args
      let rs := regs.getD 0 0
      let rt := regs.getD 1 0
      let imm := mask16 (parseIntJS (args.getD 2 "undefined"))
      .ok (opc ||| (rs <<< 21) ||| (rt <<< 16) ||| imm)
    | "bgez" | "bgezal" | "bgtz" | "blez" | "bltz" | "bltzal" =>
      let regs := filteredRegisterNumbers args
      let rs := regs.getD 0 0
      let imm := mask16 (parseIntJS (args.getD 1 "undefined"))
      .ok (opc ||| (rs <<< 21) ||| imm)
    | "lui" =>
      let regs := filteredRegisterNumbers args
      let rt := regs.getD 0 0
      let imm := mask16 (parseIntJS (args.getD 1 "undefined"))
      .ok (opc ||| (rt <<< 16) ||| imm)
    | "jr" | "jalr" =>
      let regs := filteredRegisterNumbers args
      let rs := regs.getD 0 0
      .ok (opc ||| (rs <<< 21) ||| meta.funct.getD 0)
    | "add" | "addu" | "and" | "nor" | "or" | "slt" | "sltu" | "sub"
    | "subu" | "xor" | "sllv" | "srlv" | "srav" =>
      let regs := filteredRegisterNumbers args
      let rd := regs.getD 0 0
      let rs := regs.getD 1 0
      let rt := regs.getD 2 0
      let funct := meta.funct.getD 0
      .ok (opc ||| (rs <<< 21) ||| (rt <<< 16) ||| (rd <<< 11) ||| funct)
    | "sll" | "srl" | "sra" =>
      let regs := filteredRegisterNumbers args
      let rd := regs.getD 0 0
      let rt := regs.getD 1 0
      -- the source applies NO mask to the shift amount: `shftAmt_ << 6` is a
      -- JS int32 shift, i.e. the bit pattern (ToUint32(shamt) * 2^6) mod 2^32
      let shamtBits :=
        match parseIntJS (args.getD 2 "undefined") with
        | some i => (toUint32 i <<< 6) % 2 ^ 32
        | none => 0
      .ok (opc ||| (rt <<< 16) ||| (rd <<< 11) ||| shamtBits ||| meta.funct.getD 0)
    | "j" | "jal" =>
      .ok (opc ||| mask26 (parseIntJS (args.getD 0 "undefined")))
    | "nop" => .ok opc
    | "syscall" | "eret" =>
      .ok (opc ||| meta.funct.getD 0)
    | _ => .error (.unknownInstruction instruction)

/-- TS `Assembler.assembleInstructions`: the word per instruction, in order.
(The source also has a `'break'` arm identical to the `syscall`/`eret` one;
like them it is unreachable here because the metadata revision in the dump
has no entry for it, so the lookup faults first.) -/
def assembleInstructions (instructions : List Instr) : Except AsmErr (List Nat) :=
  instructions.mapM encodeInstruction

/-! ## Loader (`Assembler.load`, `Assembler.assemble`) -/

/-- The four bytes of one encoded word in buffer order: `view.setUint32(4*i,
raw, false)` stores BIG-endian — most-significant byte at the lowest buffer
index. -/
def wordBytesBE (w : Nat) : List Nat :=
  [w / 2 ^ 24 % 256, w / 2 ^ 16 % 256, w / 2 ^ 8 % 256, w % 256]

/-- The byte stream of the machine code: `new Uint8Array(machineCode.buffer)`
read in buffer order. -/
def machineCodeBytes (machineCode : List Nat) : List Nat :=
  machineCode.flatMap wordBytesBE

/-- TS `Assembler.load`: write the byte stream at `address`, return the
address. -/
def load (m : Mem) (machineCode : List Nat) (address : Nat) :
    Except AsmErr (Nat × Mem) := do
  let m2 ← m.write address (machineCodeBytes machineCode)
  .ok (address, m2)

/-- TS `Assembler.compile` minus `parse` (programs enter as normalized token
lines) and minus `validate` (no property below depends on it; it only
checks arity/shape and raises before the passes run). -/
def compile (instructions : List Instr) (m : Mem) :
    Except AsmErr (List Nat × Mem) := do
  let tab := buildSymbolTable instructions
  let (_, resolved, m2) ← resolveSymbols tab instructions m
  let words ← assembleInstructions resolved
  .ok (words, m2)

/-- TS `Assembler.assemble(source, address)`: compile, then load at
`address`. -/
def assemble (instructions : List Instr) (address : Nat) (m : Mem) :
    Except AsmErr (Nat × Mem) := do
  let (words, m2) ← compile instructions m
  load m2 words address

/-! ## Datapath clock loop (`Component.doSingleClockCycle`) -/

/-- One registered component: its internal state and its `update()` method,
which recomputes the state and reports whether the output changed. -/
structure Component where
  state : Nat
  update : Nat → Nat × Bool

/-- One pass of the inner `for` loop: every registered component's `update`
is invoked, in registration order (`hasChanged = instance.update() ||
hasChanged` — the call is made before the or, so no short-circuit skips
it), accumulating whether anything changed. -/
def sweep (components : List Component) : List Component × Bool :=
  components.foldl
    (fun acc c =>
      let (s, changed) := c.update c.state
      (acc.1 ++ [{ c with state := s }], changed || acc.2))
    ([], false)

/-- TS `Component.doSingleClockCycle`, with an explicit iteration budget:
the source's `while (hasChanged)` loop runs sweeps until one reports no
change — it has NO iteration cap and no error path, so `none` (budget
exhausted at every finite bound) is exactly a tick that never converges. -/
def doSingleClockCycleFuel : Nat → List Component → Option (List Component)
  | 0, _ => none
  | budget + 1, components =>
    let (components2, changed) := sweep components
    if changed then doSingleClockCycleFuel budget components2
    else some components2

/-- A feedback component whose `update()` always reports a change — e.g. a
`NotGate` whose input connector is wired to its own output wire. -/
def toggler : Component := ⟨0, fun s => (1 - s, true)⟩

/-! ## Concrete fixtures -/

/-- A 4 KiB zeroed memory image (`new Memory(4096)`). -/
def mem4k : Mem := ⟨4096, fun _ => 0⟩

/-- The normalized lines of the three-line source `li $t0, 1` / `target:` /
`nop`. -/
def progLiTarget : List Instr := [["li", "$t0", "1"], ["target:"], ["nop"]]

/-- The normalized lines of the source `loop: beq $t0,$t2, loop`. -/
def progLoopBeq : List Instr := [["loop:"], ["beq", "$t0", "$t2", "loop"]]

/-- A one-line program holding the pseudo-instruction `abs $t0, $t1`. -/
def progAbs : List Instr := [["abs", "$t0", "$t1"]]

/-- A program defining the non-reserved label `a` at two different sites
(addresses 0 and 4 of the text segment). -/
def progDupLabel : List Instr := [["a:"], ["nop"], ["a:"]]

/-! ## Theorems for the claims -/

/-- C1: after pass 1 and stage A of pass 2 on `li $t0, 1` / `target:` /
`nop`, the symbol table still maps `target` to `.text` base + 4 — the
claimed `.text` base + 8 does NOT hold.  The stage-A guard compares the
recorded address against `counter + expandedLength` (= 0 + 8) instead of
the pass-1 position `counter + 4`, so the label recorded at 4 is not
shifted even though the two-word `li` expansion precedes it. -/
theorem C1_stageA_target_eval :
    symLookup (symTabAfterStageA progLiTarget) "target" = some 4 ∧
    symLookup (symTabAfterStageA progLiTarget) ".text" = some 0 ∧
    (expand ["li", "$t0", "1"]).length = 2 := by
  refine ⟨?_, ?_, ?_⟩ <;> rfl

/-- C2: the instruction list produced by stage C for a program containing
`abs $t0, $t1` still contains the pseudo-instruction `bge $9 $0 1` (the
middle line of the `abs` expansion), because stage C expands each line
exactly once and never revisits the instructions an expansion emits; the
encoder then faults on it instead of encoding it. -/
theorem C2_abs_expansion_eval :
    resolveInstructions (buildSymbolTable progAbs) progAbs mem4k =
      .ok [["sub", "$8", "$0", "$9"], ["bge", "$9", "$0", "1"],
           ["sub", "$8", "$0", "$9"]] ∧
    isMIPSPseudoInstruction "bge" = true ∧
    assembleInstructions [["sub", "$8", "$0", "$9"], ["bge", "$9", "$0", "1"],
        ["sub", "$8", "$0", "$9"]] =
      .error (.jsTypeError "bge") := by
  refine ⟨?_, ?_, ?_⟩ <;> rfl

/-- C3: on `loop: beq $t0,$t2, loop` the label `loop` IS recorded in the
symbol table at address 0, yet stage B raises `Unknown label: loop` instead
of substituting 0 — the falsy guard `if (!this.symbolTable[name])` treats a
recorded address of 0 like a missing key.  Had the substitution happened,
the encoder would have produced the claimed word 0x110A0000. -/
theorem C3_zero_address_label_eval :
    symLookup (buildSymbolTable progLoopBeq) "loop" = some 0 ∧
    resolveInstructions (buildSymbolTable progLoopBeq) progLoopBeq mem4k =
      .error (.unknownLabel "loop" 1) ∧
    encodeInstruction ["beq", "$8", "$10", "0"] = .ok 0x110A0000 := by
  refine ⟨?_, ?_, ?_⟩ <;> rfl

/-- C4: the encoder emits the exact MIPS-I words of the spec's examples:
`addi $t0,$zero,10` (normalized `addi $8 $0 10`) encodes to 0x2008000A and
`add $t2,$t0,$t1` (normalized `add $10 $8 $9`) encodes to 0x01095020. -/
theorem C4_encoder_examples :
    encodeInstruction ["addi", "$8", "$0", "10"] = .ok 0x2008000A ∧
    encodeInstruction ["add", "$10", "$8", "$9"] = .ok 0x01095020 := by
  refine ⟨?_, ?_⟩ <;> rfl

/-- C5 counterexample: at the concrete operands `$8, $9, $10` the code's
`sgt` expansion is `slt $8 $9 $8` — not the spec table's `slt a0,a2,a1` =
`slt $8 $10 $9` — and its `sge` expansion is `slt $1 $9 $8; xori $8 $1 1` —
not the spec table's `slt $1,a2,a1; xori` = `slt $1 $10 $9; xori $8 $1 1`. -/
theorem C5_counterexample :
    expand ["sgt", "$8", "$9", "$10"] ≠ [["slt", "$8", "$10", "$9"]] ∧
    expand ["sge", "$8", "$9", "$10"] ≠
      [["slt", "$1", "$10", "$9"], ["xori", "$8", "$1", "1"]] := by
  refine ⟨?_, ?_⟩ <;> decide

/-- C5 amended: for all operands `a0, a1, a2`, the code expands
`sgt a0,a1,a2` to the single instruction `slt a0,a1,a0` (the third operand
is ignored and the destination is reused as a source), and `sge a0,a1,a2`
to `slt $1,a1,a0` followed by `xori a0,$1,1` — the `slt` arguments are
`args[1], args[0]`, not the spec's `a2, a1`. -/
theorem C5_amended (a0 a1 a2 : String) :
    expand ["sgt", a0, a1, a2] = [["slt", a0, a1, a0]] ∧
    expand ["sge", a0, a1, a2] =
      [["slt", "$1", a1, a0], ["xori", a0, "$1", "1"]] :=
  ⟨rfl, rfl⟩

/-- Helper for C6: dispatch of the encoder switch to the load/store arm for
each of the ten load/store mnemonics. -/
theorem encodeInstruction_loadStore (op : String) (args : List String)
    (hop : op ∈ (["lw", "lh", "lhu", "lb", "lbu", "ll",
                  "sw", "sb", "sh", "sc"] : List String)) :
    encodeInstruction (op :: args) =
      .ok (encodeLoadStore (((lookupInstr op).getD ⟨0, none⟩).opCode <<< 26) args) := by
  fin_cases hop <;> rfl

/-- Helper for C6: the load/store arm on a degenerate two-token operand list
`[rt, offset]`.  The unshifted `'$0'` becomes the FIRST argument, so the
destructuring `[rt, rs] = regs` reads `rt = 0` and `rs = registerNumber r`:
the `$0` lands in the rt field and the named register in the rs field. -/
theorem encodeLoadStore_degenerate (opc : Nat) (r off : String) (i : Int)
    (hr : isValidRegister r = true)
    (hoffreg : isValidRegister off = false)
    (hoff : parseIntJS off = some i) :
    encodeLoadStore opc [r, off] =
      (opc ||| (registerNumber r <<< 21) ||| (0 <<< 16) |||
        (i.emod (2 ^ 16)).toNat) := by
  unfold encodeLoadStore filteredRegisterNumbers
  simp [List.filter, hr, hoffreg, hoff, mask16,
    show isValidRegister "$0" = true from rfl,
    show registerNumber "$0" = 0 from rfl]

/-- C6 counterexample: for `lw $8, 4` (degenerate two-token form) the
emitted word is 0x8D000004, whose rs field ([25:21]) is 8 — the rt
operand's register — and whose rt field ([20:16]) is 0; the claim's
`rs = 0, rt = 8` word would have been 0x8C080004. -/
theorem C6_counterexample :
    encodeInstruction ["lw", "$8", "4"] = .ok 0x8D000004 ∧
    0x8D000004 / 2 ^ 21 % 2 ^ 5 = 8 ∧
    0x8D000004 / 2 ^ 16 % 2 ^ 5 = 0 ∧
    (0x8D000004 : Nat) ≠ 0x8C080004 := by
  refine ⟨rfl, ?_, ?_, ?_⟩ <;> decide

/-- C6 amended: for every load/store instruction whose operand list at
encoding time has only two tokens, the encoder unshifts `$0` into the FIRST
(rt) slot: the emitted word has rt = 0, rs = the register number of the rt
operand, and imm16 = offset & 0xFFFF. -/
theorem C6_amended (op r off : String) (i : Int)
    (hop : op ∈ (["lw", "lh", "lhu", "lb", "lbu", "ll",
                  "sw", "sb", "sh", "sc"] : List String))
    (hr : isValidRegister r = true)
    (hoffreg : isValidRegister off = false)
    (hoff : parseIntJS off = some i) :
    encodeInstruction [op, r, off] =
      .ok ((((lookupInstr op).getD ⟨0, none⟩).opCode <<< 26) |||
        (registerNumber r <<< 21) ||| (0 <<< 16) ||| (i.emod (2 ^ 16)).toNat) := by
  rw [encodeInstruction_loadStore op [r, off] hop,
    encodeLoadStore_degenerate _ r off i hr hoffreg hoff]

/-- Helper: looking up the key just inserted (or overwritten) by
`symInsert` yields the new value. -/
theorem symLookup_symInsert (tab : SymTab) (key : String) (v : Nat) :
    symLookup (symInsert tab key v) key = some v := by
  induction tab with
  | nil => simp [symInsert, symLookup]
  | cons e rest ih =>
    by_cases h : e.1 = key
    · simp [symInsert, h, symLookup]
    · simpa [symInsert, h, symLookup] using ih

/-- Helper: a string accepted by `isValidLabel` (ending in `:`) is never a
directive mnemonic (all of which start with `.`). -/
theorem valid_label_not_directive (l : String) (h : isValidLabel l = true) :
    isMIPSAssemblerDirective l = false := by
  by_contra hc
  rw [Bool.not_eq_false] at hc
  simp only [isMIPSAssemblerDirective, List.mem_cons, List.not_mem_nil, or_false,
    decide_eq_true_eq] at hc
  rcases hc with h1 | h1 | h1 | h1 | h1 | h1 | h1 | h1 | h1 | h1 | h1 <;>
    (subst h1; exact absurd h (by decide))

/-- C7 counterexample: the program `a:` / `nop` / `a:` defines the
non-reserved label `a` at two sites (0 and 4), yet the whole pipeline
completes without any error (producing the `nop` word), and pass 1 records
the address of the SECOND site — the first recorded address 0 (visible when
the program stops before the redefinition) was silently overwritten. -/
theorem C7_counterexample :
    (compile progDupLabel mem4k).map (fun r => r.1) = .ok [0] ∧
    symLookup (buildSymbolTable progDupLabel) "a" = some 4 ∧
    symLookup (buildSymbolTable [["a:"], ["nop"]]) "a" = some 0 := by
  refine ⟨?_, ?_, ?_⟩ <;> rfl

/-- C7 amended: `buildSymbolTable` cannot raise an error on a label line;
processing a label definition always assigns `label → active counter`
through `symInsert`, which overwrites an existing entry for the same label
(the last definition wins) instead of rejecting the redefinition. -/
theorem C7_amended (st : P1State) (l : String) (h : isValidLabel l = true) :
    (pass1Step st [l]).tab =
      symInsert st.tab (l.dropRight 1) (st.counters.get st.segment) ∧
    symLookup (pass1Step st [l]).tab (l.dropRight 1) =
      some (st.counters.get st.segment) := by
  have hd : isMIPSAssemblerDirective l = false := valid_label_not_directive l h
  have h1 : (pass1Step st [l]).tab =
      symInsert st.tab (l.dropRight 1) (st.counters.get st.segment) := by
    simp [pass1Step, hd, h]
  exact ⟨h1, h1 ▸ symLookup_symInsert st.tab (l.dropRight 1) (st.counters.get st.segment)⟩

/-- C7 witness: the amended statement at the concrete state where `a` is
already recorded at 0 and the text counter stands at 4: the entry is
overwritten to 4. -/
theorem C7_amended_witness :
    (pass1Step (P1State.mk .text ⟨4, 2048⟩
        [(".text", 0), (".data", 2048), ("a", 0)]) ["a:"]).tab =
      symInsert [(".text", 0), (".data", 2048), ("a", 0)] ("a:".dropRight 1)
        (Counters.get ⟨4, 2048⟩ .text) ∧
    symLookup (pass1Step (P1State.mk .text ⟨4, 2048⟩
        [(".text", 0), (".data", 2048), ("a", 0)]) ["a:"]).tab
        ("a:".dropRight 1) =
      some (Counters.get ⟨4, 2048⟩ .text) :=
  C7_amended _ "a:" (by decide)

/-- C6 witness: the amended statement at `lw $8, 4`: the word packs
`registerNumber "$8" = 8` into the rs field and 0 into the rt field. -/
theorem C6_amended_witness :
    encodeInstruction ["lw", "$8", "4"] =
      .ok ((((lookupInstr "lw").getD ⟨0, none⟩).opCode <<< 26) |||
        (registerNumber "$8" <<< 21) ||| (0 <<< 16) |||
        ((4 : Int).emod (2 ^ 16)).toNat) :=
  C6_amended "lw" "$8" "4" 4 (by decide) (by decide) (by decide) (by decide)

/-- Helper: positions below the write window are untouched by `writeList`. -/
theorem writeList_lt (bs : List Nat) (f : Nat → Nat) (a x : Nat) (hx : x < a) :
    writeList f a bs x = f x := by
  induction bs generalizing f a with
  | nil => rfl
  | cons b rest ih =>
    rw [writeList, ih _ (a + 1) (by omega)]
    simp [Nat.ne_of_lt hx]

/-- Helper: positions at or above the end of the write window are untouched
by `writeList`. -/
theorem writeList_ge (bs : List Nat) (f : Nat → Nat) (a x : Nat)
    (hx : a + bs.length ≤ x) : writeList f a bs x = f x := by
  induction bs generalizing f a with
  | nil => rfl
  | cons b rest ih =>
    rw [writeList, ih _ (a + 1) (by simp at hx; omega)]
    have : x ≠ a := by simp at hx; omega
    simp [this]

/-- Helper: reading back inside the window gives the written byte. -/
theorem writeList_get (bs : List Nat) (f : Nat → Nat) (a k : Nat)
    (hk : k < bs.length) :
    writeList f a bs (a + k) = bs.getD k 0 % 256 := by
  induction bs generalizing f a k with
  | nil => simp at hk
  | cons b rest ih =>
    cases k with
    | zero =>
      rw [writeList]
      simp only [Nat.add_zero]
      rw [writeList_lt rest _ (a + 1) a (by omega)]
      simp
    | succ k2 =>
      rw [writeList, show a + (k2 + 1) = (a + 1) + k2 by omega,
        ih _ (a + 1) k2 (by simpa using hk)]
      simp

/-- Helper: the loader's byte stream holds exactly four bytes per word. -/
theorem machineCodeBytes_length (ws : List Nat) :
    (machineCodeBytes ws).length = 4 * ws.length := by
  induction ws with
  | nil => rfl
  | cons w rest ih =>
    simp [machineCodeBytes, wordBytesBE] at *
    omega

/-- Helper: byte `j` of word `i` in the loader's byte stream is that word's
big-endian byte `j` (most significant first). -/
theorem machineCodeBytes_getD (ws : List Nat) (i j : Nat)
    (hi : i < ws.length) (hj : j < 4) :
    (machineCodeBytes ws).getD (4 * i + j) 0 =
      ws.getD i 0 / 2 ^ (8 * (3 - j)) % 256 := by
  induction ws generalizing i with
  | nil => simp at hi
  | cons w rest ih =>
    have hb : machineCodeBytes (w :: rest) = wordBytesBE w ++ machineCodeBytes rest := rfl
    cases i with
    | zero =>
      rw [hb, List.getD_append _ _ _ _ (by simp [wordBytesBE]; omega)]
      interval_cases j <;> simp [wordBytesBE]
    | succ i2 =>
      rw [hb,
        show 4 * (i2 + 1) + j = (wordBytesBE w).length + (4 * i2 + j) by
          simp [wordBytesBE]; omega,
        List.getD_append_right _ _ _ _ (by omega)]
      simp only [Nat.add_sub_cancel_left]
      rw [ih i2 (by simpa using hi)]
      simp

/-- C8 counterexample: assembling the single instruction `add $t2,$t0,$t1`
(word 0x01095020) and loading at address 0 puts 0x01 — the MOST significant
byte — at the lowest address; little-endian in-buffer order would have put
the least significant byte 0x20 there. -/
theorem C8_counterexample :
    (compile [["add", "$t2", "$t0", "$t1"]] mem4k).map (fun r => r.1) =
      .ok [0x01095020] ∧
    (assemble [["add", "$t2", "$t0", "$t1"]] 0 mem4k).map
        (fun r => r.2.readByte 0) = .ok 0x01 ∧
    (0x01 : Nat) ≠ 0x01095020 % 256 := by
  refine ⟨?_, ?_, ?_⟩ <;> first | rfl | decide

/-- C8 amended: the loader writes each encoded word's four bytes in
BIG-endian in-buffer order — byte `j` of instruction `i` lands at
`base + 4·i + j` and holds bits `[31−8j : 24−8j]` of the word — with
consecutive instructions at ascending addresses (instruction `i` at
`base + 4·i`). -/
theorem C8_amended (machineCode : List Nat) (m : Mem) (address i j : Nat)
    (hi : i < machineCode.length) (hj : j < 4)
    (hbounds : address + 4 * machineCode.length ≤ m.size) :
    (load m machineCode address).map
        (fun r => r.2.readByte (address + (4 * i + j))) =
      .ok (machineCode.getD i 0 / 2 ^ (8 * (3 - j)) % 256) := by
  have hlen := machineCodeBytes_length machineCode
  unfold load Mem.write
  rw [if_pos (by omega)]
  simp only [Except.bind, Except.map, Mem.readByte, bind, pure]
  rw [writeList_get _ _ _ _ (by omega)]
  rw [machineCodeBytes_getD _ _ _ hi hj]
  exact congrArg Except.ok (Nat.mod_mod_of_dvd _ dvd_rfl)

/-- C8 witness: the amended statement at the one-word program
`[0x2008000A]` loaded at 0: byte 0 reads back `0x2008000A >> 24 = 0x20`. -/
theorem C8_amended_witness :
    (load mem4k [0x2008000A] 0).map
        (fun r => r.2.readByte (0 + (4 * 0 + 0))) =
      .ok (([0x2008000A] : List Nat).getD 0 0 / 2 ^ (8 * (3 - 0)) % 256) :=
  C8_amended [0x2008000A] mem4k 0 0 0 (by decide) (by decide) (by decide)

/-- Helper: a single always-changing feedback component makes every sweep
report a change, so no finite iteration budget ever sees the loop stop. -/
theorem cycle_toggler_none :
    ∀ (n s : Nat), doSingleClockCycleFuel n [⟨s, fun t => (1 - t, true)⟩] = none := by
  intro n
  induction n with
  | zero => intro s; rfl
  | succ k ih =>
    intro s
    have step : doSingleClockCycleFuel (k + 1) [⟨s, fun t => (1 - t, true)⟩] =
        doSingleClockCycleFuel k [⟨1 - s, fun t => (1 - t, true)⟩] := rfl
    rw [step]
    exact ih (1 - s)

/-- C9 counterexample: with the single registered component `toggler` (an
always-reporting feedback gate) `doSingleClockCycle` never finishes: no
iteration budget, however large, reaches a converged sweep — the source has
no iteration cap and no error path, so the tick loops forever. -/
theorem C9_counterexample :
    ¬ ∃ (n : Nat) (cs : List Component),
        doSingleClockCycleFuel n [toggler] = some cs := by
  rintro ⟨n, cs, h⟩
  rw [show toggler = ⟨0, fun t => (1 - t, true)⟩ from rfl,
    cycle_toggler_none n 0] at h
  exact Option.noConfusion h

/-- C9 amended: `doSingleClockCycle` iterates `update()` over the registered
components in registration order until no component reports a change, but
it has NO iteration cap and no error path: for the non-converging system
`[toggler]` the loop body runs past every finite budget. -/
theorem C9_amended (n : Nat) : doSingleClockCycleFuel n [toggler] = none := by
  rw [show toggler = ⟨0, fun t => (1 - t, true)⟩ from rfl]
  exact cycle_toggler_none n 0

/-- Helper: `getD` through a `(· % 256)` map. -/
theorem getD_map_mod (l : List Nat) (k : Nat) (hk : k < l.length) :
    (l.map (fun x => x % 256)).getD k 0 = l.getD k 0 % 256 := by
  induction l generalizing k with
  | nil => simp at hk
  | cons b rest ih =>
    cases k with
    | zero => simp
    | succ k2 => simpa using ih k2 (by simpa using hk)

/-- C10: executing a `.ascii "s"` directive writes decoded-length(s) + 1
bytes starting at the directive's recorded address — the decoded bytes
followed by a trailing 0x00 at `recorded + decoded-length(s)` — and touches
nothing outside that span, while `calculateForwardOffset` reserves only
decoded-length(s) bytes: the trailing byte lands one byte past the
directive's reserved span. -/
theorem C10_ascii_writes (args : List String) (lc : Nat) (m : Mem)
    (hbounds : lc + ((directiveAsciiValues args).length + 1) ≤ m.size) :
    ∃ m2, executeDirective ".ascii" args lc m = .ok m2 ∧
      (∀ k, k < (directiveAsciiValues args).length →
        m2.readByte (lc + k) = (directiveAsciiValues args).getD k 0 % 256) ∧
      m2.readByte (lc + (directiveAsciiValues args).length) = 0 ∧
      (∀ a, a < lc ∨ lc + ((directiveAsciiValues args).length + 1) ≤ a →
        m2.readByte a = m.readByte a) ∧
      calculateForwardOffset ".ascii" args lc = (directiveAsciiValues args).length := by
  have hexec : executeDirective ".ascii" args lc m =
      m.write lc ((directiveAsciiValues args).map (fun x => x % 256) ++ [0]) := rfl
  have hlen : ((directiveAsciiValues args).map (fun x => x % 256) ++ [0]).length
      = (directiveAsciiValues args).length + 1 := by simp
  have hwrite : m.write lc ((directiveAsciiValues args).map (fun x => x % 256) ++ [0]) =
      .ok (Mem.mk m.size (writeList m.bytes lc
        ((directiveAsciiValues args).map (fun x => x % 256) ++ [0]))) := by
    unfold Mem.write
    rw [if_pos (by omega)]
  refine ⟨_, hexec.trans hwrite, ?_, ?_, ?_, rfl⟩
  · intro k hk
    simp only [Mem.readByte]
    rw [writeList_get _ _ _ _ (by rw [hlen]; omega)]
    rw [List.getD_append _ _ _ _ (by simp; omega)]
    rw [getD_map_mod _ _ hk]
    exact Nat.mod_mod_of_dvd _ dvd_rfl
  · simp only [Mem.readByte]
    rw [writeList_get _ _ _ _ (by rw [hlen]; omega)]
    rw [List.getD_append_right _ _ _ _ (by simp)]
    simp
  · intro a ha
    simp only [Mem.readByte]
    rcases ha with ha | ha
    · exact writeList_lt _ _ _ _ ha
    · exact writeList_ge _ _ _ _ (by rw [hlen]; omega)

/-- C10 witness: `.ascii "hi"` at the data base 2048 in a 4 KiB memory —
decoded length 2, bytes 0x68 0x69 written at 2048 and 2049, the trailing
0x00 at 2050, one byte past the 2-byte reserved span. -/
theorem C10_ascii_writes_witness :
    ∃ m2, executeDirective ".ascii" ["\"hi\""] 2048 mem4k = .ok m2 ∧
      (∀ k, k < (directiveAsciiValues ["\"hi\""]).length →
        m2.readByte (2048 + k) = (directiveAsciiValues ["\"hi\""]).getD k 0 % 256) ∧
      m2.readByte (2048 + (directiveAsciiValues ["\"hi\""]).length) = 0 ∧
      (∀ a, a < 2048 ∨ 2048 + ((directiveAsciiValues ["\"hi\""]).length + 1) ≤ a →
        m2.readByte a = mem4k.readByte a) ∧
      calculateForwardOffset ".ascii" ["\"hi\""] 2048 =
        (directiveAsciiValues ["\"hi\""]).length :=
  C10_ascii_writes ["\"hi\""] 2048 mem4k (by decide)

/-- C5 witness: the amended expansions at the concrete operands
`$8, $9, $10`. -/
theorem C5_amended_witness :
    expand ["sgt", "$8", "$9", "$10"] = [["slt", "$8", "$9", "$8"]] ∧
    expand ["sge", "$8", "$9", "$10"] =
      [["slt", "$1", "$9", "$8"], ["xori", "$8", "$1", "1"]] :=
  C5_amended "$8" "$9" "$10"

/-- C9 witness: the amended statement at the concrete budget 3. -/
theorem C9_amended_witness : doSingleClockCycleFuel 3 [toggler] = none :=
  C9_amended 3

end TSMIPS
